import Mathlib

/-!
Verification of the apify/actor-code-sandbox request-processing engine.

This file shallowly embeds the path resolution, language normalization,
command/code execution, filesystem operations, HTTP facade dispatch,
readiness/activity state and migration persistence logic of the sandbox
service, and proves (or refutes) the specification claims about them.

Sources embedded:
- sandbox/src/operations.ts (path resolution, runCommand, executeCode,
  writeFile/readFile/listFiles, writeFileBinary, appendFile,
  createDirectory, deleteFileOrDirectory, listFilesDetailed)
- sandbox/src/mcp.ts (normalizeLanguage, MCP tool wrappers)
- sandbox/src/main.ts (normalizeLanguage, /exec, /health, DELETE /fs/*,
  activity middleware, WebSocket activity, readiness state)
- sandbox/src/persistence.ts (saveMigrationState, restoreMigrationState)
- src/operations.ts (legacy executeCode with content-hashed temp names)

JavaScript string builtins (toLowerCase, startsWith, includes) are modelled
over the character list of a Lean String; this is exact for the ASCII
strings these code paths compare against.
-/

namespace Sandbox

/-! ## Models of the JavaScript string builtins used by the source -/

/-- Model of JS `String.prototype.toLowerCase` (exact on ASCII input). -/
def jsToLower (s : String) : String := ⟨s.data.map Char.toLower⟩

/-- Model of JS `String.prototype.startsWith`. -/
def jsStartsWith (s pre : String) : Bool := pre.data.isPrefixOf s.data

/-- Bool test for a pattern occurring inside a character list. -/
def listInfixOf (pat : List Char) : List Char → Bool
  | [] => pat.isEmpty
  | c :: rest => pat.isPrefixOf (c :: rest) || listInfixOf pat rest

/-- Model of JS `String.prototype.includes`. -/
def jsIncludes (s sub : String) : Bool := listInfixOf sub.data s.data

/-- Model of JS `||` on strings: empty string is falsy. -/
def jsOrStr (a b : String) : String := if a = "" then b else a

/-- JS whitespace for `String.prototype.trim` (the characters relevant to
source code are space, tab, newline, carriage return, vertical tab and
form feed). -/
def jsWhitespace (c : Char) : Bool :=
  c = ' ' || c = '\t' || c = '\n' || c = '\r' || c = '\x0b' || c = '\x0c'

/-- Model of JS `String.prototype.trim`. -/
def jsTrim (s : String) : String :=
  ⟨((s.data.dropWhile jsWhitespace).reverse.dropWhile jsWhitespace).reverse⟩

/-- Model of JS `||` on an optional number: `null`/`undefined` and `0` are falsy. -/
def jsOrNum (x : Option Int) (d : Int) : Int :=
  match x with
  | some n => if n = 0 then d else n
  | none => d

/-! ## Model of Node `path.posix` (normalize / join / isAbsolute) -/

/-- Split a character list on `/` separators. -/
def splitSlashAux : List Char → List Char → List (List Char)
  | [], acc => [acc.reverse]
  | c :: rest, acc =>
    if c = '/' then acc.reverse :: splitSlashAux rest []
    else splitSlashAux rest (c :: acc)

/-- Split a path string into its `/`-separated segments. -/
def splitSlash (s : String) : List String :=
  (splitSlashAux s.data []).map (fun l => ⟨l⟩)

/-- Core of Node `path.posix.normalize`: resolve `.`, `..` and empty
segments; `..` above the root is dropped for absolute paths and kept for
relative ones. -/
def normSegsAux (abs : Bool) : List String → List String → List String
  | stack, [] => stack.reverse
  | stack, seg :: rest =>
    if seg = "" ∨ seg = "." then normSegsAux abs stack rest
    else if seg = ".." then
      match stack with
      | [] => if abs then normSegsAux abs [] rest else normSegsAux abs [".."] rest
      | top :: stk =>
        if top = ".." then normSegsAux abs (seg :: (top :: stk)) rest
        else normSegsAux abs stk rest
    else normSegsAux abs (seg :: stack) rest

/-- Model of Node `path.posix.normalize`. -/
def posixNormalize (s : String) : String :=
  if s = "" then "."
  else
    let abs := jsStartsWith s "/"
    let trail := s.data.getLast? = some '/'
    let segs := normSegsAux abs [] (splitSlash s)
    let body := String.intercalate "/" segs
    if body = "" then
      if abs then "/" else if trail then "./" else "."
    else
      (if abs then "/" ++ body else body) ++ (if trail then "/" else "")

/-- Model of Node `path.posix.isAbsolute`. -/
def isAbsolute (p : String) : Bool := jsStartsWith p "/"

/-- Model of Node `path.posix.join` for two parts (join then normalize). -/
def pathJoin2 (a b : String) : String :=
  if b = "" then posixNormalize a else posixNormalize (a ++ "/" ++ b)

/-! ## Sandbox constants (consts.ts) -/

def SANDBOX_DIR : String := "/sandbox"
def PYTHON_CODE_DIR : String := "/sandbox/py"
def JS_TS_CODE_DIR : String := "/sandbox/js-ts"

/-! ## Path resolution and validation (operations.ts) -/

/-- The recurring resolution idiom of operations.ts:
`path.isAbsolute(p) ? p : path.join(SANDBOX_DIR, p)`. -/
def resolveSandboxPath (p : String) : String :=
  if isAbsolute p then p else pathJoin2 SANDBOX_DIR p

/-- `resolveDirectoryPath` of operations.ts (`!dirPath` treats the empty
string and an absent argument alike). -/
def resolveDirectoryPath (p : Option String) : String :=
  match p with
  | none => SANDBOX_DIR
  | some d => if d = "" then SANDBOX_DIR else resolveSandboxPath d

/-- The escape error message thrown by the validating operations. -/
def escapeMsg (p : String) : String :=
  "Access denied: Path " ++ p ++ " resolves outside of sandbox"

/-- Semantic notion of a path lying inside the sandbox root directory:
either the root itself or a path below it. -/
def insideSandboxRoot (p : String) : Bool :=
  (p == SANDBOX_DIR) || jsStartsWith p (SANDBOX_DIR ++ "/")

/-- `resolveAndValidatePath` of operations.ts. `realpathOf` models
`fs.realpath`: `some r` when the resolved path exists (with real path `r`),
`none` when it does not, in which case the normalized path is used. -/
def resolveAndValidatePath (realpathOf : String → Option String) (filePath : String) :
    Except String String :=
  let resolvedPath := resolveSandboxPath filePath
  let realPath :=
    match realpathOf resolvedPath with
    | some r => r
    | none => posixNormalize resolvedPath
  if jsStartsWith realPath SANDBOX_DIR then Except.ok realPath
  else Except.error (escapeMsg filePath)

/-- The custom-cwd validation inside `executeCode` of operations.ts. -/
def executeCodeCwdCheck (cwd : String) : Except String String :=
  let resolvedCwd := resolveSandboxPath cwd
  let normalizedCwd := posixNormalize resolvedCwd
  if jsStartsWith normalizedCwd SANDBOX_DIR then Except.ok normalizedCwd
  else Except.error ("Access denied: Working directory " ++ cwd ++ " is outside of sandbox")

/-- The target-path computation and validation of `writeFileBinary`. -/
def writeFileBinaryTarget (filePath : String) : Except String String :=
  let resolvedPath := resolveSandboxPath filePath
  let normalizedPath := posixNormalize resolvedPath
  if jsStartsWith normalizedPath SANDBOX_DIR then Except.ok normalizedPath
  else Except.error (escapeMsg filePath)

/-- The target-path computation and validation of `appendFile`. -/
def appendFileTarget (filePath : String) : Except String String :=
  let resolvedPath := resolveSandboxPath filePath
  let normalizedPath := posixNormalize resolvedPath
  if jsStartsWith normalizedPath SANDBOX_DIR then Except.ok normalizedPath
  else Except.error (escapeMsg filePath)

/-- The target-path computation and validation of `createDirectory`. -/
def createDirectoryTarget (dirPath : String) : Except String String :=
  let resolvedPath := resolveSandboxPath dirPath
  let normalizedPath := posixNormalize resolvedPath
  if jsStartsWith normalizedPath SANDBOX_DIR then Except.ok normalizedPath
  else Except.error (escapeMsg dirPath)

/-! ## Languages and normalization (main.ts and mcp.ts) -/

inductive CodeLang
  | js
  | ts
  | py
deriving DecidableEq, Repr

inductive Lang
  | shell
  | code (c : CodeLang)
deriving DecidableEq, Repr

/-- The canonical language string carried in results. -/
def langStr : Lang → String
  | Lang.shell => "shell"
  | Lang.code CodeLang.js => "js"
  | Lang.code CodeLang.ts => "ts"
  | Lang.code CodeLang.py => "py"

def codeLangStr (c : CodeLang) : String := langStr (Lang.code c)

/-- The alias mapping object of `normalizeLanguage` in main.ts. -/
def languageAliasMap (lower : String) : Option Lang :=
  if lower = "js" then some (Lang.code CodeLang.js)
  else if lower = "javascript" then some (Lang.code CodeLang.js)
  else if lower = "ts" then some (Lang.code CodeLang.ts)
  else if lower = "typescript" then some (Lang.code CodeLang.ts)
  else if lower = "py" then some (Lang.code CodeLang.py)
  else if lower = "python" then some (Lang.code CodeLang.py)
  else if lower = "bash" then some Lang.shell
  else if lower = "sh" then some Lang.shell
  else none

/-- `normalizeLanguage` of main.ts: `if (!lang) return null` (so an absent
or empty string yields null), then lowercase and look up in the alias map. -/
def normalizeLanguage (lang : Option String) : Option Lang :=
  match lang with
  | none => none
  | some l => if l = "" then none else languageAliasMap (jsToLower l)

/-- The alias mapping object of `normalizeLanguage` in mcp.ts (textually
the same table as the one in main.ts). -/
def languageAliasMapMcp (lower : String) : Option Lang :=
  if lower = "js" then some (Lang.code CodeLang.js)
  else if lower = "javascript" then some (Lang.code CodeLang.js)
  else if lower = "ts" then some (Lang.code CodeLang.ts)
  else if lower = "typescript" then some (Lang.code CodeLang.ts)
  else if lower = "py" then some (Lang.code CodeLang.py)
  else if lower = "python" then some (Lang.code CodeLang.py)
  else if lower = "bash" then some Lang.shell
  else if lower = "sh" then some Lang.shell
  else none

/-- `normalizeLanguage` of mcp.ts. -/
def normalizeLanguageMcp (lang : Option String) : Option Lang :=
  match lang with
  | none => none
  | some l => if l = "" then none else languageAliasMapMcp (jsToLower l)

/-! ## Child processes and `runCommand` (operations.ts via Node `exec`)

A child's behaviour is described by its captured output streams, its exit
status (`none` when killed by a signal) and whether the caller-supplied
timeout expired (in which case Node kills the child). `execAsync` maps a
behaviour to the promise outcome per Node `child_process.exec` semantics:
the promise resolves exactly when the child exits with status 0 and was
not killed; otherwise it rejects with an error carrying the partial
output and, for a plain non-zero exit, the numeric code (`null` when the
child was killed, as on timeout). -/

structure ChildBehavior where
  stdout : String
  stderr : String
  exitStatus : Option Int
  timedOut : Bool
  errMessage : String
deriving DecidableEq, Repr

inductive ChildOutcome
  | resolved (stdout stderr : String)
  | rejected (stdout stderr : String) (code : Option Int) (message : String)
deriving DecidableEq, Repr

/-- Node `promisify(exec)` outcome for a given child behaviour. -/
def execAsync (b : ChildBehavior) : ChildOutcome :=
  if b.timedOut then ChildOutcome.rejected b.stdout b.stderr none b.errMessage
  else
    match b.exitStatus with
    | some 0 => ChildOutcome.resolved b.stdout b.stderr
    | some n => ChildOutcome.rejected b.stdout b.stderr (some n) b.errMessage
    | none => ChildOutcome.rejected b.stdout b.stderr none b.errMessage

structure RunResult where
  stdout : String
  stderr : String
  exitCode : Int
deriving DecidableEq, Repr

/-- `runCommand` of operations.ts: success maps to exit code 0; a rejection
is caught and mapped to `{stdout: err.stdout || '', stderr: err.stderr || '',
exitCode: err.code || 1}` — returned, never rethrown. -/
def runCommand (b : ChildBehavior) : RunResult :=
  match execAsync b with
  | ChildOutcome.resolved out err => ⟨out, err, 0⟩
  | ChildOutcome.rejected out err code _ => ⟨jsOrStr out "", jsOrStr err "", jsOrNum code 1⟩

/-! ## Hex encoding and SHA-256 (Node `crypto`, for temp file names) -/

/-- Lowercase hex digit, as produced by Node `Buffer.toString('hex')`. -/
def hexDigitChar (n : Nat) : Char :=
  if n < 10 then Char.ofNat (48 + n) else Char.ofNat (87 + n)

/-- Lowercase hex encoding of a byte list. -/
def bytesToHex (bs : List Nat) : String :=
  ⟨bs.foldr (fun b acc => hexDigitChar (b / 16 % 16) :: hexDigitChar (b % 16) :: acc) []⟩

def M32 : Nat := 4294967296

def rotr32 (x n : Nat) : Nat := ((x >>> n) ||| ((x <<< (32 - n)) % M32)) % M32

def bigSigma0 (x : Nat) : Nat := (rotr32 x 2) ^^^ (rotr32 x 13) ^^^ (rotr32 x 22)
def bigSigma1 (x : Nat) : Nat := (rotr32 x 6) ^^^ (rotr32 x 11) ^^^ (rotr32 x 25)
def smallSigma0 (x : Nat) : Nat := (rotr32 x 7) ^^^ (rotr32 x 18) ^^^ (x >>> 3)
def smallSigma1 (x : Nat) : Nat := (rotr32 x 17) ^^^ (rotr32 x 19) ^^^ (x >>> 10)
def chNat (x y z : Nat) : Nat := (x &&& y) ^^^ ((x ^^^ 4294967295) &&& z)
def majNat (x y z : Nat) : Nat := (x &&& y) ^^^ (x &&& z) ^^^ (y &&& z)

/-- The 64 SHA-256 round constants (FIPS 180-4), written in decimal. -/
def sha256K : List Nat :=
  [1116352408, 1899447441, 3049323471, 3921009573, 961987163, 1508970993,
   2453635748, 2870763221, 3624381080, 310598401, 607225278, 1426881987,
   1925078388, 2162078206, 2614888103, 3248222580, 3835390401, 4022224774,
   264347078, 604807628, 770255983, 1249150122, 1555081692, 1996064986,
   2554220882, 2821834349, 2952996808, 3210313671, 3336571891, 3584528711,
   113926993, 338241895, 666307205, 773529912, 1294757372, 1396182291,
   1695183700, 1986661051, 2177026350, 2456956037, 2730485921, 2820302411,
   3259730800, 3345764771, 3516065817, 3600352804, 4094571909, 275423344,
   430227734, 506948616, 659060556, 883997877, 958139571, 1322822218,
   1537002063, 1747873779, 1955562222, 2024104815, 2227730452, 2361852424,
   2428436474, 2756734187, 3204031479, 3329325298]

/-- The eight SHA-256 initial hash values (FIPS 180-4), written in decimal. -/
def sha256Init : List Nat :=
  [1779033703, 3144134277, 1013904242, 2773480762,
   1359893119, 2600822924, 528734635, 1541459225]

/-- SHA-256 padding: append `0x80`, zero bytes, and the 64-bit big-endian
bit length so the total is a multiple of 64 bytes. -/
def sha256Pad (msg : List Nat) : List Nat :=
  let len := msg.length
  let bitLen := 8 * len
  let padZeros := (119 - len % 64) % 64
  msg ++ [0x80] ++ List.replicate padZeros 0 ++
    [bitLen >>> 56 &&& 255, bitLen >>> 48 &&& 255, bitLen >>> 40 &&& 255, bitLen >>> 32 &&& 255,
     bitLen >>> 24 &&& 255, bitLen >>> 16 &&& 255, bitLen >>> 8 &&& 255, bitLen &&& 255]

/-- Big-endian 32-bit words from bytes. -/
def bytesToWords : List Nat → List Nat
  | a :: b :: c :: d :: rest => ((a <<< 24) ||| (b <<< 16) ||| (c <<< 8) ||| d) :: bytesToWords rest
  | _ => []

/-- Extend a 16-word block to the 64-word message schedule. -/
def extendW : Nat → List Nat → List Nat
  | 0, ws => ws
  | n + 1, ws =>
    let l := ws.length
    let nw := (smallSigma1 (ws.getD (l - 2) 0) + ws.getD (l - 7) 0 +
               smallSigma0 (ws.getD (l - 15) 0) + ws.getD (l - 16) 0) % M32
    extendW n (ws ++ [nw])

/-- One SHA-256 round on the 8-word working state. -/
def roundStep (st : List Nat) (kw : Nat × Nat) : List Nat :=
  match st with
  | [a, b, c, d, e, f, g, h] =>
    let t1 := (h + bigSigma1 e + chNat e f g + kw.1 + kw.2) % M32
    let t2 := (bigSigma0 a + majNat a b c) % M32
    [(t1 + t2) % M32, a, b, c, (d + t1) % M32, e, f, g]
  | other => other

/-- Compress one 16-word block into the hash state. -/
def compressBlock (st : List Nat) (block : List Nat) : List Nat :=
  let w := extendW 48 block
  let fin := (sha256K.zip w).foldl roundStep st
  (st.zip fin).map (fun p => (p.1 + p.2) % M32)

/-- Fold the compression over `n` successive 16-word blocks. -/
def sha256LoopN : Nat → List Nat → List Nat → List Nat
  | 0, _, st => st
  | n + 1, ws, st => sha256LoopN n (ws.drop 16) (compressBlock st (ws.take 16))

def wordBytesBE (w : Nat) : List Nat :=
  [w >>> 24 &&& 255, w >>> 16 &&& 255, w >>> 8 &&& 255, w &&& 255]

/-- SHA-256 digest (32 bytes) of a byte list. -/
def sha256Bytes (msg : List Nat) : List Nat :=
  let ws := bytesToWords (sha256Pad msg)
  (sha256LoopN (ws.length / 16) ws sha256Init).foldr (fun w acc => wordBytesBE w ++ acc) []

/-- Bytes of an ASCII string (UTF-8 agrees with code points below 128). -/
def asciiBytes (s : String) : List Nat := s.data.map Char.toNat

/-- Lowercase hex SHA-256 digest of an ASCII string, as produced by Node
`crypto.createHash('sha256').update(code).digest('hex')`. -/
def sha256hex (s : String) : String := bytesToHex (sha256Bytes (asciiBytes s))

/-! ## Code execution (operations.ts `executeCode`, and the legacy
src/operations.ts variant) -/

def fileExt : CodeLang → String
  | CodeLang.js => ".js"
  | CodeLang.ts => ".ts"
  | CodeLang.py => ".py"

/-- Temp file name of the current `executeCode`: `uniqueId` is
`crypto.randomBytes(6).toString('hex')`, supplied here as the hex string
of the six random bytes drawn for this execution. -/
def tempFileName (uniqueId : String) (lang : CodeLang) : String :=
  "/tmp/code-" ++ uniqueId ++ fileExt lang

/-- Temp file name of the legacy src/operations.ts `executeCode`: the first
12 hex characters of the SHA-256 digest of the code itself. -/
def legacyTempFileName (code : String) (lang : CodeLang) : String :=
  "/tmp/code-" ++ (⟨(sha256hex code).data.take 12⟩ : String) ++ fileExt lang

def defaultExecutionDir : CodeLang → String
  | CodeLang.js => JS_TS_CODE_DIR
  | CodeLang.ts => JS_TS_CODE_DIR
  | CodeLang.py => PYTHON_CODE_DIR

structure ExecutionResult where
  stdout : String
  stderr : String
  exitCode : Int
  language : String
deriving DecidableEq, Repr

/-- Observable trace of one `executeCode` call: its result, whether an
interpreter child was spawned, the temp file written (if any) and the
working directory used (if a child ran). -/
structure CodeExecTrace where
  result : ExecutionResult
  spawned : Bool
  tempFile : Option String
  executionDir : Option String
deriving DecidableEq, Repr

/-- The interpreter invocation at the end of `executeCode` (delegation to
`execAsync`, with the catch branch using
`err.stderr || err.message || 'Code execution failed'`). -/
def codeRun (b : ChildBehavior) (tempFile dir : String) (lang : CodeLang) : CodeExecTrace :=
  match execAsync b with
  | ChildOutcome.resolved out err =>
    ⟨⟨out, err, 0, codeLangStr lang⟩, true, some tempFile, some dir⟩
  | ChildOutcome.rejected out err code msg =>
    ⟨⟨jsOrStr out "", jsOrStr err (jsOrStr msg "Code execution failed"), jsOrNum code 1,
      codeLangStr lang⟩, true, some tempFile, some dir⟩

/-- `executeCode` of operations.ts (current version). The language argument
is already one of js/ts/py, matching the validated union type; empty code is
rejected with a result object; a custom cwd (`if (cwd)`, so the empty string
is falsy and ignored) is validated against the sandbox prefix; then the
interpreter runs in the chosen directory. The timeout is part of the child
behaviour. -/
def executeCode (b : ChildBehavior) (uniqueId : String) (code : String) (lang : CodeLang)
    (cwd : Option String) : CodeExecTrace :=
  if jsTrim code = "" then
    ⟨⟨"", "Code cannot be empty", 1, codeLangStr lang⟩, false, none, none⟩
  else
    let tempFile := tempFileName uniqueId lang
    match cwd with
    | some c =>
      if c = "" then codeRun b tempFile (defaultExecutionDir lang) lang
      else
        match executeCodeCwdCheck c with
        | Except.error e => ⟨⟨"", e, 1, codeLangStr lang⟩, false, some tempFile, none⟩
        | Except.ok d => codeRun b tempFile d lang
    | none => codeRun b tempFile (defaultExecutionDir lang) lang

/-! ## The `POST /exec` endpoint (main.ts) -/

structure ExecRequest where
  command : String
  language : Option String
  cwd : Option String
deriving DecidableEq, Repr

inductive ExecBody
  | errorBody (msg : String)
  | resultBody (r : ExecutionResult)
deriving DecidableEq, Repr

structure ExecResponse where
  status : Nat
  body : ExecBody
  spawned : Bool
deriving DecidableEq, Repr

/-- Environment of one `/exec` request: the behaviour the shell child or
interpreter child would exhibit, and the random id drawn for a temp file. -/
structure ExecEnv where
  shellChild : ChildBehavior
  codeChild : ChildBehavior
  uniqueId : String
deriving DecidableEq, Repr

/-- JS truthiness of the `language` field (`language && !normalizedLang`). -/
def langPresent (req : ExecRequest) : Bool :=
  match req.language with
  | none => false
  | some l => !(l == "")

def invalidLanguageMsg (l : String) : String :=
  "Invalid language: " ++ l ++ ". Supported: js, javascript, ts, typescript, py, python, bash, sh"

/-- The `POST /exec` handler of main.ts: 400 on a missing command, 400 on a
present-but-unknown language, shell execution when the language is absent or
normalizes to shell (overriding the result language to "shell"), code
execution otherwise; the status is 500 when the result's exit code is
non-zero, 200 otherwise. -/
def postExec (env : ExecEnv) (req : ExecRequest) : ExecResponse :=
  if req.command = "" then ⟨400, ExecBody.errorBody "Command is required", false⟩
  else
    let normalizedLang := normalizeLanguage req.language
    if langPresent req && normalizedLang.isNone then
      ⟨400, ExecBody.errorBody (invalidLanguageMsg ((req.language).getD "")), false⟩
    else
      match normalizedLang with
      | some (Lang.code c) =>
        let t := executeCode env.codeChild env.uniqueId req.command c req.cwd
        ⟨if t.result.exitCode ≠ 0 then 500 else 200, ExecBody.resultBody t.result, t.spawned⟩
      | _ =>
        let r := runCommand env.shellChild
        ⟨if r.exitCode ≠ 0 then 500 else 200,
         ExecBody.resultBody ⟨r.stdout, r.stderr, r.exitCode, "shell"⟩, true⟩

/-- Language string of a response carrying a result body. -/
def respLanguage (r : ExecResponse) : Option String :=
  match r.body with
  | ExecBody.resultBody res => some res.language
  | ExecBody.errorBody _ => none

/-! ## File contents store and the MCP-facing file operations
(operations.ts `writeFile` / `readFile` / `listFiles`, mcp.ts wrappers)

The filesystem is a finite map from absolute paths to file contents.
`writeFile`, `readFile` and `listFiles` resolve a relative path against
the sandbox directory and then access the resolved path directly — their
bodies contain no sandbox validation, so the model performs none. I/O
failures other than a missing file on read are not modelled. -/

def Fs : Type := List (String × String)

def fsGet (fs : Fs) (p : String) : Option String :=
  (fs.find? (fun e => e.1 == p)).map (fun e => e.2)

def fsSet (fs : Fs) (p c : String) : Fs :=
  (p, c) :: fs.filter (fun e => !(e.1 == p))

structure WriteFileResult where
  success : Bool
  path : String
  error : Option String
deriving DecidableEq, Repr

/-- `writeFile` of operations.ts: resolve (relative paths join the sandbox
directory; absolute paths are used as given), `mkdir -p` the parent, write,
report success with the resolved path. No sandbox check is performed. -/
def writeFile (fs : Fs) (filePath content : String) : WriteFileResult × Fs :=
  let resolvedPath := resolveSandboxPath filePath
  (⟨true, resolvedPath, none⟩, fsSet fs resolvedPath content)

structure ReadFileResult where
  content : Option String
  path : String
  error : Option String
deriving DecidableEq, Repr

/-- `readFile` of operations.ts: resolve the same way, then read; a missing
file surfaces as an error result. No sandbox check is performed. -/
def readFile (fs : Fs) (filePath : String) : ReadFileResult :=
  let resolvedPath := resolveSandboxPath filePath
  match fsGet fs resolvedPath with
  | some c => ⟨some c, resolvedPath, none⟩
  | none => ⟨none, filePath, some ("ENOENT: no such file or directory, open " ++ resolvedPath)⟩

/-- The directory `listFiles` of operations.ts reads (via
`resolveDirectoryPath`); again no sandbox check is performed. -/
def listFilesTarget (dirPath : Option String) : String := resolveDirectoryPath dirPath

/-- The mcp.ts `write-file` tool: call `writeFile`, set `isError` exactly
when the result's `success` flag is false. -/
def mcpWriteFile (fs : Fs) (path content : String) : (Bool × WriteFileResult) × Fs :=
  let r := writeFile fs path content
  ((!r.1.success, r.1), r.2)

/-- The mcp.ts `read-file` tool: call `readFile`, set `isError` exactly when
the result carries an error. -/
def mcpReadFile (fs : Fs) (path : String) : Bool × ReadFileResult :=
  let r := readFile fs path
  (r.error.isSome, r)

/-! ## Typed filesystem and `deleteFileOrDirectory` (operations.ts),
with the `DELETE /fs/*` facade (main.ts)

For delete we track entry kinds. A directory is non-empty exactly when
some entry lies strictly below it. Symlinks are not modelled, so
`fs.realpath` of an existing path is its normalized form
(`noSymlinkRealpath`). -/

inductive FType
  | file
  | dir
deriving DecidableEq, Repr

def DirFs : Type := List (String × FType)

def dirFsLookup (fs : DirFs) (p : String) : Option FType :=
  (fs.find? (fun e => e.1 == p)).map (fun e => e.2)

def strictDescendants (fs : DirFs) (p : String) : List String :=
  (fs.filter (fun e => jsStartsWith e.1 (p ++ "/"))).map (fun e => e.1)

def fsRemoveOne (fs : DirFs) (p : String) : DirFs :=
  fs.filter (fun e => !(e.1 == p))

def fsRemoveTree (fs : DirFs) (p : String) : DirFs :=
  fs.filter (fun e => !(e.1 == p) && !(jsStartsWith e.1 (p ++ "/")))

/-- `fs.realpath` in a symlink-free filesystem: defined (as the normalized
path) exactly on existing paths. -/
def noSymlinkRealpath (fs : DirFs) (q : String) : Option String :=
  if (dirFsLookup fs (posixNormalize q)).isSome then some (posixNormalize q) else none

structure DeleteResult where
  success : Bool
  path : String
  error : Option String
deriving DecidableEq, Repr

def notEmptyMsg : String :=
  "Directory not empty. Use recursive=true to delete non-empty directories."

/-- `deleteFileOrDirectory` of operations.ts: resolve and validate the path,
stat it (a missing path is an error result), then: for a directory without
`recursive`, fail with the not-empty message if it has entries, otherwise
`rmdir`; for a directory with `recursive`, remove the whole tree; for a
file, unlink. All failures are returned, with the filesystem unchanged. -/
def deleteFileOrDirectory (fs : DirFs) (filePath : String) (recursive : Bool) :
    DeleteResult × DirFs :=
  match resolveAndValidatePath (noSymlinkRealpath fs) filePath with
  | Except.error e => (⟨false, filePath, some e⟩, fs)
  | Except.ok rp =>
    match dirFsLookup fs rp with
    | none => (⟨false, filePath, some ("ENOENT: no such file or directory, stat " ++ rp)⟩, fs)
    | some FType.dir =>
      if !recursive then
        if (strictDescendants fs rp).isEmpty then (⟨true, rp, none⟩, fsRemoveOne fs rp)
        else (⟨false, filePath, some notEmptyMsg⟩, fs)
      else (⟨true, rp, none⟩, fsRemoveTree fs rp)
    | some FType.file => (⟨true, rp, none⟩, fsRemoveOne fs rp)

inductive DeleteBody
  | okBody (path : String)
  | errBody (error : String) (code : Option String)
deriving DecidableEq, Repr

/-- The `DELETE /fs/*` handler of main.ts: 400 on the root path; 200 on
success; 409 with code DIRECTORY_NOT_EMPTY when the error message contains
"not empty"; 500 otherwise. -/
def deleteEndpoint (fs : DirFs) (filePath : String) (recursive : Bool) :
    (Nat × DeleteBody) × DirFs :=
  if filePath = "" ∨ filePath = "/" then
    ((400, DeleteBody.errBody "Cannot delete root directory" none), fs)
  else
    let r := deleteFileOrDirectory fs filePath recursive
    if r.1.success then ((200, DeleteBody.okBody r.1.path), r.2)
    else if (match r.1.error with | some e => jsIncludes e "not empty" | none => false) then
      ((409, DeleteBody.errBody ((r.1.error).getD "") (some "DIRECTORY_NOT_EMPTY")), r.2)
    else ((500, DeleteBody.errBody ((r.1.error).getD "") none), r.2)

/-! ## Readiness, health and activity (main.ts) -/

structure ServerState where
  initializationComplete : Bool
  initializationError : Option String
  lastActivityAt : Nat
deriving DecidableEq, Repr

/-- The only mutations main.ts performs on the shared state: recording an
init-script failure (which the startup code does only while starting, before
completion, and only once), marking initialization complete, and stamping
activity. -/
inductive ServerStep : ServerState → ServerState → Prop
  | setInitError (st : ServerState) (e : String)
      (hc : st.initializationComplete = false) (he : st.initializationError = none) :
      ServerStep st { st with initializationError := some e }
  | markComplete (st : ServerState) :
      ServerStep st { st with initializationComplete := true }
  | touchActivity (st : ServerState) (t : Nat) :
      ServerStep st { st with lastActivityAt := t }

inductive HealthBody
  | initializing
  | unhealthy (message : String)
  | healthy
deriving DecidableEq, Repr

/-- The `GET /health` handler of main.ts. -/
def healthEndpoint (st : ServerState) : Nat × HealthBody :=
  if st.initializationComplete = false then (503, HealthBody.initializing)
  else
    match st.initializationError with
    | some e => (503, HealthBody.unhealthy e)
    | none => (200, HealthBody.healthy)

/-- A routed request: `/health`, `/exec`, or any of the remaining routes,
which main.ts implements without consulting the readiness state. -/
inductive Route
  | health
  | exec (env : ExecEnv) (req : ExecRequest)
  | other (tag : Nat)

inductive RouteResponse
  | healthR (r : Nat × HealthBody)
  | execR (r : ExecResponse)
  | generic (tag : Nat)
deriving DecidableEq, Repr

/-- Request dispatch: only the `/health` handler reads the server state. -/
def dispatch (st : ServerState) : Route → RouteResponse
  | Route.health => RouteResponse.healthR (healthEndpoint st)
  | Route.exec env req => RouteResponse.execR (postExec env req)
  | Route.other t => RouteResponse.generic t

/-- The activity-relevant events of main.ts: an HTTP request through the
Express middleware, and the two directions of traffic on a `/shell`
WebSocket. The upgrade handler installs a listener only for the socket's
`data` events, which fire solely for bytes received from the client
(`shellSocketRecv`); PTY output is written to the socket
(`shellSocketSend`) and never fires `data`, and the source installs no
handler observing writes. -/
inductive ActivityEvent
  | httpRequest (path : String) (readinessProbeHeader : Bool)
  | shellSocketRecv
  | shellSocketSend
deriving DecidableEq, Repr

/-- The activity-stamping logic: the middleware updates `lastActivityAt`
only when the path is not `/health` and the readiness-probe header is
absent; a client-to-server byte on a shell WebSocket (a `data` event)
updates it; a server-to-client PTY output byte triggers no handler and
leaves the state untouched. -/
def trackActivity (now : Nat) (st : ServerState) : ActivityEvent → ServerState
  | ActivityEvent.httpRequest path probe =>
    if !(path == "/health") && !probe then { st with lastActivityAt := now } else st
  | ActivityEvent.shellSocketRecv => { st with lastActivityAt := now }
  | ActivityEvent.shellSocketSend => st

/-! ## Migration persistence (persistence.ts)

`Except String α` models a JS promise that may reject: `.error` is an
uncaught exception propagating to the caller. Each fallible sub-step of
checkpoint and restore is an oracle in the environment; the sub-operations
that catch internally (`findChangedFiles`, `parseAptHistory`,
`generatePipFreeze`, per-file `statSync`, `reinstallPackages`) are
represented by their non-throwing results. -/

structure MigManifest where
  version : Nat
  changedCount : Nat
deriving DecidableEq, Repr

structure SaveEnv where
  changedFiles : List String
  aptPackages : List String
  pipPackages : List String
  fileSizes : String → Option Nat
  markerStat : Except String Nat
  createTarball : Except String Unit
  readTarball : Except String Unit
  uploadTarball : Except String Unit
  uploadManifest : Except String Unit

/-- The body of the `try` block of `saveMigrationState`: gathering changed
files and package manifests and summing sizes cannot throw (those helpers
catch internally, per-file `statSync` failures are skipped); then the
awaits in source order, each able to reject: stat the startup marker,
create the tarball, read it back, upload the tarball, upload the manifest. -/
def saveMigrationStateTry (env : SaveEnv) : Except String Unit :=
  match env.markerStat with
  | Except.error e => Except.error e
  | Except.ok _ =>
    match env.createTarball with
    | Except.error e => Except.error e
    | Except.ok _ =>
      match env.readTarball with
      | Except.error e => Except.error e
      | Except.ok _ =>
        match env.uploadTarball with
        | Except.error e => Except.error e
        | Except.ok _ => env.uploadManifest

inductive SaveOutcome
  | saved
  | errorLogged (e : String)
deriving DecidableEq, Repr

/-- `saveMigrationState`: the whole body sits in a `try`/`catch` whose catch
logs and does not rethrow, so the promise it returns never rejects. -/
def saveMigrationState (env : SaveEnv) : Except String SaveOutcome :=
  match saveMigrationStateTry env with
  | Except.ok _ => Except.ok SaveOutcome.saved
  | Except.error e => Except.ok (SaveOutcome.errorLogged e)

structure RestoreEnv where
  getManifest : Except String (Option MigManifest)
  getTarball : Except String (Option Unit)
  writeTarballFile : Except String Unit
  extractTarball : Except String Unit

/-- The body of the `try` block of `restoreMigrationState`: a missing
manifest or a missing tarball returns false; otherwise write the tarball to
a temp file (may reject), extract it when the manifest records changed
files (may reject), reinstall packages (which catches all of its own
failures, so it cannot reject), and return true. -/
def restoreMigrationStateTry (env : RestoreEnv) : Except String Bool :=
  match env.getManifest with
  | Except.error e => Except.error e
  | Except.ok none => Except.ok false
  | Except.ok (some manifest) =>
    match env.getTarball with
    | Except.error e => Except.error e
    | Except.ok none => Except.ok false
    | Except.ok (some _) =>
      match env.writeTarballFile with
      | Except.error e => Except.error e
      | Except.ok _ =>
        match (if manifest.changedCount > 0 then env.extractTarball else Except.ok ()) with
        | Except.error e => Except.error e
        | Except.ok _ => Except.ok true

/-- `restoreMigrationState`: the catch maps every exception to `false`, so
the promise never rejects and startup can proceed from the base image. -/
def restoreMigrationState (env : RestoreEnv) : Except String Bool :=
  match restoreMigrationStateTry env with
  | Except.ok b => Except.ok b
  | Except.error _ => Except.ok false

/-! ## Helper lemmas -/

theorem jsOrStr_empty_right (a : String) : jsOrStr a "" = a := by
  unfold jsOrStr
  split
  · simp only [*]
  · rfl

theorem codeRun_tempFile (b : ChildBehavior) (t d : String) (l : CodeLang) :
    (codeRun b t d l).tempFile = some t := by
  unfold codeRun
  split <;> rfl

theorem codeRun_language (b : ChildBehavior) (t d : String) (l : CodeLang) :
    (codeRun b t d l).result.language = codeLangStr l := by
  unfold codeRun
  split <;> rfl

theorem executeCode_language_eq (b : ChildBehavior) (uid code : String) (lang : CodeLang)
    (cwd : Option String) :
    (executeCode b uid code lang cwd).result.language = codeLangStr lang := by
  unfold executeCode
  split
  · rfl
  · split
    · split
      · exact codeRun_language ..
      · split
        · rfl
        · exact codeRun_language ..
    · exact codeRun_language ..

theorem executeCode_tempFile_eq (b : ChildBehavior) (uid code : String) (lang : CodeLang)
    (cwd : Option String) (h : jsTrim code ≠ "") :
    (executeCode b uid code lang cwd).tempFile = some (tempFileName uid lang) := by
  unfold executeCode
  rw [if_neg h]
  split
  · split
    · exact codeRun_tempFile ..
    · split
      · rfl
      · exact codeRun_tempFile ..
  · exact codeRun_tempFile ..

theorem bytesToHex_length (bs : List Nat) : (bytesToHex bs).length = 2 * bs.length := by
  unfold bytesToHex
  show (bs.foldr (fun b acc => hexDigitChar (b / 16 % 16) :: hexDigitChar (b % 16) :: acc)
      []).length = 2 * bs.length
  induction bs with
  | nil => rfl
  | cons b rest ih => simp [List.foldr, ih]; ring

theorem tempFileName_inj (uid uid' : String) (l : CodeLang)
    (hlen : uid.length = uid'.length) (hne : uid ≠ uid') :
    tempFileName uid l ≠ tempFileName uid' l := by
  intro h
  apply hne
  unfold tempFileName at h
  have hd := congrArg String.data h
  rw [String.data_append, String.data_append, String.data_append, String.data_append,
      List.append_assoc, List.append_assoc] at hd
  have h2 := List.append_cancel_left hd
  have h3 := (List.append_inj h2 hlen).1
  exact String.ext h3

theorem resolveAndValidate_noSymlink (fs : DirFs) (p : String) :
    resolveAndValidatePath (noSymlinkRealpath fs) p =
      (if jsStartsWith (posixNormalize (resolveSandboxPath p)) SANDBOX_DIR
       then Except.ok (posixNormalize (resolveSandboxPath p))
       else Except.error (escapeMsg p)) := by
  by_cases h : (dirFsLookup fs (posixNormalize (resolveSandboxPath p))).isSome = true
  · simp [resolveAndValidatePath, noSymlinkRealpath, h]
  · simp [resolveAndValidatePath, noSymlinkRealpath, h]

theorem charOfNat_toNat_shift (n : Nat) (h1 : 65 ≤ n) (h2 : n ≤ 90) :
    (Char.ofNat (n + 32)).toNat = n + 32 := by
  have hv : Nat.isValidChar (n + 32) := by left; omega
  simp [Char.ofNat, hv, Char.ofNatAux, Char.toNat, UInt32.toNat, BitVec.toNat_ofNatLt]

theorem charToLower_idem (c : Char) : Char.toLower (Char.toLower c) = Char.toLower c := by
  have hdef : ∀ x : Char,
      Char.toLower x = if x.toNat ≥ 65 ∧ x.toNat ≤ 90 then Char.ofNat (x.toNat + 32) else x :=
    fun _ => rfl
  by_cases h : c.toNat ≥ 65 ∧ c.toNat ≤ 90
  · have h1 : Char.toLower c = Char.ofNat (c.toNat + 32) := by rw [hdef c, if_pos h]
    have h2 : (Char.toLower c).toNat = c.toNat + 32 := by
      rw [h1]
      exact charOfNat_toNat_shift c.toNat h.1 h.2
    have h3 : ¬((Char.toLower c).toNat ≥ 65 ∧ (Char.toLower c).toNat ≤ 90) := by
      rw [h2]
      omega
    rw [hdef (Char.toLower c), if_neg h3]
  · have h1 : Char.toLower c = c := by rw [hdef c, if_neg h]
    rw [h1]
    exact h1

theorem jsToLower_idem (s : String) : jsToLower (jsToLower s) = jsToLower s := by
  apply String.ext
  show (s.data.map Char.toLower).map Char.toLower = s.data.map Char.toLower
  rw [List.map_map]
  exact List.map_congr_left (fun c _ => charToLower_idem c)

theorem jsToLower_eq_empty {s : String} (h : jsToLower s = "") : s = "" := by
  apply String.ext
  have hd := congrArg String.data h
  have : s.data.map Char.toLower = [] := hd
  have hnil : s.data = [] := List.map_eq_nil_iff.mp this
  exact hnil

/-! ## Claim theorems -/

/-- C1: the claim says every /fs path and every explicit code-execution cwd
resolving outside the sandbox root `/sandbox` fails with a path-escape
error. The code's guard is the string-prefix test
`realPath.startsWith(SANDBOX_DIR)`, which also accepts sibling paths such
as `/sandboxx/...` that merely share the prefix string: the relative cwd
`../sandboxx` resolves to `/sandboxx`, which lies outside the sandbox root
directory, yet every validator accepts it — contradicting the function's
own documentation ("Ensures the resolved path stays within /sandbox
directory"). -/
theorem c1_prefix_check_admits_sibling_path :
    executeCodeCwdCheck "../sandboxx" = Except.ok "/sandboxx" ∧
    insideSandboxRoot "/sandboxx" = false ∧
    writeFileBinaryTarget "../sandboxx/pwn" = Except.ok "/sandboxx/pwn" ∧
    insideSandboxRoot "/sandboxx/pwn" = false ∧
    appendFileTarget "/sandboxx/log" = Except.ok "/sandboxx/log" ∧
    createDirectoryTarget "../sandboxx/d" = Except.ok "/sandboxx/d" ∧
    resolveAndValidatePath (fun _ => none) "/sandboxx/secret" = Except.ok "/sandboxx/secret" ∧
    insideSandboxRoot "/sandboxx/secret" = false := by
  exact ⟨rfl, rfl, rfl, rfl, rfl, rfl, rfl, rfl⟩

/-- C2 counterexample: the claim says the MCP write-file/read-file/list-files
tools route through the validating path resolver and therefore fail with a
path-escape error on paths outside /sandbox. In fact they wrap `writeFile`,
`readFile` and `listFiles`, none of which validates: writing `/etc/x`
through the MCP write-file tool succeeds (isError = false) and creates the
file at `/etc/x`, outside the sandbox root, and read-file then reads it
back without error. -/
theorem c2_mcp_write_outside_sandbox :
    (mcpWriteFile [] "/etc/x" "owned").1.1 = false ∧
    (mcpWriteFile [] "/etc/x" "owned").1.2.success = true ∧
    (mcpWriteFile [] "/etc/x" "owned").1.2.path = "/etc/x" ∧
    insideSandboxRoot "/etc/x" = false ∧
    fsGet (mcpWriteFile [] "/etc/x" "owned").2 "/etc/x" = some "owned" ∧
    (mcpReadFile (mcpWriteFile [] "/etc/x" "owned").2 "/etc/x").1 = false ∧
    (mcpReadFile (mcpWriteFile [] "/etc/x" "owned").2 "/etc/x").2.content = some "owned" ∧
    listFilesTarget (some "/etc") = "/etc" := by
  decide

/-- C2 amended: the MCP tools wrap `writeFile`, `readFile` and `listFiles`,
which resolve relative paths against /sandbox but perform no sandbox-escape
validation: every path is accessed at its resolved location, the write
lands exactly there, and no error (in particular no path-escape error) is
ever produced by resolution. -/
theorem c2_mcp_file_ops_no_escape_validation :
    ∀ (fs : Fs) (p content : String),
      (mcpWriteFile fs p content).1.2.error = none ∧
      (mcpWriteFile fs p content).1.1 = false ∧
      (mcpWriteFile fs p content).1.2.path = resolveSandboxPath p ∧
      fsGet (mcpWriteFile fs p content).2 (resolveSandboxPath p) = some content ∧
      ((mcpReadFile fs p).2.path = resolveSandboxPath p ∨ (mcpReadFile fs p).2.path = p) ∧
      listFilesTarget (some p) = (if p = "" then SANDBOX_DIR else resolveSandboxPath p) := by
  intro fs p content
  refine ⟨rfl, rfl, rfl, ?_, ?_, rfl⟩
  · show fsGet (fsSet fs (resolveSandboxPath p) content) (resolveSandboxPath p) = some content
    unfold fsGet fsSet
    simp
  · unfold mcpReadFile readFile
    cases h : fsGet fs (resolveSandboxPath p) with
    | some c => left; simp [h]
    | none => right; simp [h]

/-- C4 counterexample: the claim says a timeout surfaces "a timeout
indication in stderr". `runCommand` returns `err.stderr || ''` untouched:
for a timed-out child that wrote nothing to stderr, the returned stderr is
the empty string, carrying no indication of any kind (the exit code is 1
and the partial stdout is preserved). -/
theorem c4_timeout_no_stderr_indication :
    runCommand ⟨"partial out", "", none, true, "Command failed: sleep 100"⟩ =
      ⟨"partial out", "", 1⟩ ∧
    (runCommand ⟨"partial out", "", none, true, "Command failed: sleep 100"⟩).stderr = "" := by
  decide

/-- C4 amended: `runCommand` returns exit code 0 exactly when the child
exited with status 0 and was not killed by the timeout; on timeout the
child's partial stdout and stderr are returned unchanged (nothing is
appended to stderr) with exit code 1, as an ordinary result object. -/
theorem c4_run_command_exit_code (b : ChildBehavior) :
    ((runCommand b).exitCode = 0 ↔ (b.exitStatus = some 0 ∧ b.timedOut = false)) ∧
    (b.timedOut = true → runCommand b = ⟨b.stdout, b.stderr, 1⟩) := by
  constructor
  · unfold runCommand execAsync
    by_cases ht : b.timedOut
    · simp [ht, jsOrStr_empty_right, jsOrNum]
    · simp only [ht, if_false, Bool.false_eq_true, and_true]
      cases hs : b.exitStatus with
      | none => simp [jsOrStr_empty_right, jsOrNum]
      | some n =>
        by_cases hn : n = 0
        · subst hn
          simp
        · simp [hn, jsOrStr_empty_right, jsOrNum]
  · intro ht
    unfold runCommand execAsync
    simp [ht, jsOrStr_empty_right, jsOrNum]

/-- C4 witness: a clean exit maps to exit code 0; a timed-out child's
partial output comes back with exit code 1. -/
theorem c4_run_command_exit_code_witness :
    (runCommand ⟨"ok", "", some 0, false, ""⟩).exitCode = 0 ∧
    runCommand ⟨"a", "b", none, true, "m"⟩ = ⟨"a", "b", 1⟩ :=
  ⟨(c4_run_command_exit_code ⟨"ok", "", some 0, false, ""⟩).1.mpr (by decide),
   (c4_run_command_exit_code ⟨"a", "b", none, true, "m"⟩).2 rfl⟩

/-- C5 counterexample: the claim says every code execution's temp file name
carries a random 12-hex suffix not derived from the code's content. The
legacy `executeCode` in src/operations.ts names the file with the first 12
hex characters of the SHA-256 digest of the code itself: the name is a
function of the content (verified here against concrete digests), so two
executions of identical code always compute the identical file name. -/
theorem c5_legacy_temp_name_content_derived :
    legacyTempFileName "print(1)" CodeLang.py = "/tmp/code-d287bb7f9d15.py" ∧
    legacyTempFileName "print(2)" CodeLang.py = "/tmp/code-fc92339e2c86.py" ∧
    legacyTempFileName "print(1)" CodeLang.py = legacyTempFileName "print(1)" CodeLang.py := by
  refine ⟨by decide, by decide, rfl⟩

/-- C5 amended: in the current `executeCode` (sandbox/src/operations.ts)
the temp file name carries the hex encoding of six random bytes — 12 hex
characters, independent of the code's content — so distinct random ids
give distinct file names and each execution sees its own file; the legacy
src/operations.ts variant instead derives the name from the code's SHA-256
digest. -/
theorem c5_random_temp_names :
    (∀ bytes : List Nat, bytes.length = 6 → (bytesToHex bytes).length = 12) ∧
    (∀ (uid uid' : String) (l : CodeLang), uid.length = uid'.length → uid ≠ uid' →
      tempFileName uid l ≠ tempFileName uid' l) ∧
    (∀ (uid : String) (l : CodeLang) (b b' : ChildBehavior) (c c' : String)
        (w w' : Option String), jsTrim c ≠ "" → jsTrim c' ≠ "" →
      (executeCode b uid c l w).tempFile = (executeCode b' uid c' l w').tempFile) := by
  refine ⟨?_, ?_, ?_⟩
  · intro bytes h
    rw [bytesToHex_length, h]
  · exact fun uid uid' l hlen hne => tempFileName_inj uid uid' l hlen hne
  · intro uid l b b' c c' w w' hc hc'
    rw [executeCode_tempFile_eq b uid c l w hc, executeCode_tempFile_eq b' uid c' l w' hc']

/-- C5 witness: six concrete bytes hex-encode to 12 characters, two
distinct ids give distinct temp names, and two different nonempty scripts
with the same random id map to the same (content-independent) temp file. -/
theorem c5_random_temp_names_witness :
    (bytesToHex [18, 52, 86, 120, 154, 188]).length = 12 ∧
    tempFileName "aaaaaaaaaaaa" CodeLang.py ≠ tempFileName "bbbbbbbbbbbb" CodeLang.py ∧
    (executeCode ⟨"", "", some 0, false, ""⟩ "abcdef012345" "print(1)" CodeLang.py
        none).tempFile =
      (executeCode ⟨"", "", some 0, false, ""⟩ "abcdef012345" "print(2)" CodeLang.py
        none).tempFile :=
  ⟨c5_random_temp_names.1 [18, 52, 86, 120, 154, 188] (by decide),
   c5_random_temp_names.2.1 "aaaaaaaaaaaa" "bbbbbbbbbbbb" CodeLang.py (by decide) (by decide),
   c5_random_temp_names.2.2 "abcdef012345" CodeLang.py ⟨"", "", some 0, false, ""⟩
     ⟨"", "", some 0, false, ""⟩ "print(1)" "print(2)" none none (by decide) (by decide)⟩

/-- C3: for every `/exec` request with a non-empty command the language is
normalized by the alias map (javascript→js, typescript→ts, python→py,
bash/sh→shell, absent→shell); a present language outside the map is
rejected with HTTP 400 before any child runs; and the language field of
the returned result equals the normalized language. -/
theorem c3_exec_language_normalization :
    (normalizeLanguage (some "javascript") = some (Lang.code CodeLang.js) ∧
     normalizeLanguage (some "js") = some (Lang.code CodeLang.js) ∧
     normalizeLanguage (some "typescript") = some (Lang.code CodeLang.ts) ∧
     normalizeLanguage (some "ts") = some (Lang.code CodeLang.ts) ∧
     normalizeLanguage (some "python") = some (Lang.code CodeLang.py) ∧
     normalizeLanguage (some "py") = some (Lang.code CodeLang.py) ∧
     normalizeLanguage (some "bash") = some Lang.shell ∧
     normalizeLanguage (some "sh") = some Lang.shell ∧
     normalizeLanguage (some "ruby") = none ∧
     normalizeLanguage none = none) ∧
    (∀ (env : ExecEnv) (req : ExecRequest) (l : String),
      req.command ≠ "" → req.language = some l → l ≠ "" →
      normalizeLanguage (some l) = none →
      postExec env req = ⟨400, ExecBody.errorBody (invalidLanguageMsg l), false⟩) ∧
    (∀ (env : ExecEnv) (req : ExecRequest) (L : Lang),
      req.command ≠ "" → normalizeLanguage req.language = some L →
      respLanguage (postExec env req) = some (langStr L)) ∧
    (∀ (env : ExecEnv) (req : ExecRequest),
      req.command ≠ "" → req.language = none →
      respLanguage (postExec env req) = some "shell") := by
  refine ⟨⟨by decide, by decide, by decide, by decide, by decide, by decide, by decide,
    by decide, by decide, rfl⟩, ?_, ?_, ?_⟩
  · intro env req l hc hl hlne hnone
    have hbeq : (l == "") = false := beq_eq_false_iff_ne.mpr hlne
    obtain ⟨cmd, lng, cw⟩ := req
    cases hl
    simp only [postExec, langPresent, hnone, hbeq, if_neg hc, Option.isNone_none,
      Bool.not_false, Bool.and_true, if_true, Option.getD_some]
  · intro env req L hc hnorm
    unfold postExec
    rw [if_neg hc]
    simp only [hnorm, Option.isNone_some, Bool.and_false, Bool.false_eq_true, if_false]
    cases L with
    | shell => simp [respLanguage, langStr]
    | code c => simp [respLanguage, executeCode_language_eq, langStr, codeLangStr]
  · intro env req hc hl
    obtain ⟨cmd, lng, cw⟩ := req
    cases hl
    simp only [postExec, langPresent, normalizeLanguage, if_neg hc, Option.isNone_none,
      Bool.false_and, Bool.false_eq_true, if_false, respLanguage]

/-- C3 witness: "Python" normalizes to py and is echoed back; "ruby" is
rejected with 400 before any child runs; an absent language yields shell. -/
theorem c3_exec_language_normalization_witness :
    respLanguage (postExec ⟨⟨"", "", some 0, false, ""⟩, ⟨"", "", some 0, false, ""⟩, "abc"⟩
        ⟨"print(1)", some "Python", none⟩) = some "py" ∧
    postExec ⟨⟨"", "", some 0, false, ""⟩, ⟨"", "", some 0, false, ""⟩, "abc"⟩
        ⟨"ls", some "ruby", none⟩ =
      ⟨400, ExecBody.errorBody (invalidLanguageMsg "ruby"), false⟩ ∧
    respLanguage (postExec ⟨⟨"", "", some 0, false, ""⟩, ⟨"", "", some 0, false, ""⟩, "abc"⟩
        ⟨"ls", none, none⟩) = some "shell" :=
  ⟨c3_exec_language_normalization.2.2.1 _ _ (Lang.code CodeLang.py) (by decide) (by decide),
   c3_exec_language_normalization.2.1 _ _ "ruby" (by decide) rfl (by decide) (by decide),
   c3_exec_language_normalization.2.2.2 _ _ (by decide) rfl⟩

/-- C6: delete of a file unlinks it; delete of an empty directory removes
it; delete of a non-empty directory without `recursive` answers 409 with
code DIRECTORY_NOT_EMPTY and leaves the filesystem unchanged; delete with
`recursive` removes the directory tree. (`rp` is the resolved real path of
the argument; the hypotheses state that the path passes the root check and
the sandbox validation.) -/
theorem c6_delete_semantics :
    ∀ (fs : DirFs) (p : String) (recursive : Bool) (rp : String),
      rp = posixNormalize (resolveSandboxPath p) →
      p ≠ "" → p ≠ "/" →
      jsStartsWith rp SANDBOX_DIR = true →
      (dirFsLookup fs rp = some FType.file →
        deleteEndpoint fs p recursive = ((200, DeleteBody.okBody rp), fsRemoveOne fs rp)) ∧
      (dirFsLookup fs rp = some FType.dir → recursive = false →
        (strictDescendants fs rp).isEmpty = true →
        deleteEndpoint fs p recursive = ((200, DeleteBody.okBody rp), fsRemoveOne fs rp)) ∧
      (dirFsLookup fs rp = some FType.dir → recursive = false →
        (strictDescendants fs rp).isEmpty = false →
        deleteEndpoint fs p recursive =
          ((409, DeleteBody.errBody notEmptyMsg (some "DIRECTORY_NOT_EMPTY")), fs)) ∧
      (dirFsLookup fs rp = some FType.dir → recursive = true →
        deleteEndpoint fs p recursive = ((200, DeleteBody.okBody rp), fsRemoveTree fs rp)) := by
  intro fs p recursive rp hrp hne hnroot hval
  subst hrp
  have hroot : ¬(p = "" ∨ p = "/") := by
    rintro (h | h)
    · exact hne h
    · exact hnroot h
  have hinc : jsIncludes notEmptyMsg "not empty" = true := by decide
  refine ⟨?_, ?_, ?_, ?_⟩
  · intro hf
    simp [deleteEndpoint, if_neg hroot, deleteFileOrDirectory,
      resolveAndValidate_noSymlink, hval, hf]
  · intro hd hr hempty
    subst hr
    simp [deleteEndpoint, if_neg hroot, deleteFileOrDirectory,
      resolveAndValidate_noSymlink, hval, hd, hempty]
  · intro hd hr hfull
    subst hr
    simp [deleteEndpoint, if_neg hroot, deleteFileOrDirectory,
      resolveAndValidate_noSymlink, hval, hd, hfull, hinc]
  · intro hd hr
    subst hr
    simp [deleteEndpoint, if_neg hroot, deleteFileOrDirectory,
      resolveAndValidate_noSymlink, hval, hd]

/-- C6 witness: in a sandbox holding directory `/sandbox/proj` with one
file inside, deleting `proj` non-recursively answers 409 DIRECTORY_NOT_EMPTY
and changes nothing; deleting the file unlinks it; deleting `proj`
recursively removes the tree. -/
theorem c6_delete_semantics_witness :
    deleteEndpoint [("/sandbox/proj", FType.dir), ("/sandbox/proj/a.txt", FType.file)]
        "proj" false =
      ((409, DeleteBody.errBody notEmptyMsg (some "DIRECTORY_NOT_EMPTY")),
        [("/sandbox/proj", FType.dir), ("/sandbox/proj/a.txt", FType.file)]) ∧
    deleteEndpoint [("/sandbox/proj", FType.dir), ("/sandbox/proj/a.txt", FType.file)]
        "proj/a.txt" false =
      ((200, DeleteBody.okBody "/sandbox/proj/a.txt"),
        fsRemoveOne [("/sandbox/proj", FType.dir), ("/sandbox/proj/a.txt", FType.file)]
          "/sandbox/proj/a.txt") ∧
    deleteEndpoint [("/sandbox/proj", FType.dir), ("/sandbox/proj/a.txt", FType.file)]
        "proj" true =
      ((200, DeleteBody.okBody "/sandbox/proj"),
        fsRemoveTree [("/sandbox/proj", FType.dir), ("/sandbox/proj/a.txt", FType.file)]
          "/sandbox/proj") :=
  ⟨(c6_delete_semantics _ "proj" false "/sandbox/proj" (by decide) (by decide) (by decide)
      (by decide)).2.2.1 (by decide) rfl (by decide),
   (c6_delete_semantics _ "proj/a.txt" false "/sandbox/proj/a.txt" (by decide) (by decide)
      (by decide) (by decide)).1 (by decide),
   (c6_delete_semantics _ "proj" true "/sandbox/proj" (by decide) (by decide) (by decide)
      (by decide)).2.2.2 (by decide) rfl⟩

/-- Single-step preservation: no mutation clears a recorded init error. -/
theorem serverStep_error_preserved {st st' : ServerState} (h : ServerStep st st') (e : String)
    (he : st.initializationError = some e) : st'.initializationError = some e := by
  cases h with
  | setInitError e' hc hnone => rw [he] at hnone; cases hnone
  | markComplete => exact he
  | touchActivity t => exact he

/-- Single-step preservation: completion is never revoked. -/
theorem serverStep_complete_preserved {st st' : ServerState} (h : ServerStep st st')
    (hc : st.initializationComplete = true) : st'.initializationComplete = true := by
  cases h with
  | setInitError e hcf hnone => rw [hc] at hcf; cases hcf
  | markComplete => rfl
  | touchActivity t => exact hc

/-- C7: the readiness state is monotone — once an init error is recorded it
is never cleared, and completion is never revoked, along any sequence of
the state mutations the server performs; `/health` answers 503 initializing
before completion and 503 (never 200) whenever the error is set; and every
route other than `/health` is dispatched without reading the server
state. -/
theorem c7_readiness_monotone_health_gate :
    (∀ st st' : ServerState, Relation.ReflTransGen ServerStep st st' →
      ∀ e, st.initializationError = some e → st'.initializationError = some e) ∧
    (∀ st st' : ServerState, Relation.ReflTransGen ServerStep st st' →
      st.initializationComplete = true → st'.initializationComplete = true) ∧
    (∀ (st : ServerState) (e : String), st.initializationError = some e →
      (healthEndpoint st).1 = 503 ∧ (healthEndpoint st).1 ≠ 200) ∧
    (∀ st : ServerState, st.initializationComplete = false →
      healthEndpoint st = (503, HealthBody.initializing)) ∧
    (∀ (st₁ st₂ : ServerState) (r : Route), r ≠ Route.health →
      dispatch st₁ r = dispatch st₂ r) := by
  refine ⟨?_, ?_, ?_, ?_, ?_⟩
  · intro st st' h e he
    induction h with
    | refl => exact he
    | tail _ hstep ih => exact serverStep_error_preserved hstep e ih
  · intro st st' h hc
    induction h with
    | refl => exact hc
    | tail _ hstep ih => exact serverStep_complete_preserved hstep ih
  · intro st e he
    cases hcomp : st.initializationComplete with
    | false => simp [healthEndpoint, hcomp]
    | true => simp [healthEndpoint, hcomp, he]
  · intro st hc
    simp [healthEndpoint, hc]
  · intro st₁ st₂ r hr
    cases r with
    | health => exact absurd rfl hr
    | exec env req => rfl
    | other t => rfl

/-- C7 witness: after the startup sequence records an init failure and then
marks completion, the error is still recorded, `/health` answers 503, and a
non-health route answers identically in any two states. -/
theorem c7_readiness_monotone_health_gate_witness :
    (⟨true, some "Init script failed with exit code 1", 0⟩ : ServerState).initializationError =
      some "Init script failed with exit code 1" ∧
    (healthEndpoint ⟨true, some "Init script failed with exit code 1", 0⟩).1 = 503 ∧
    healthEndpoint ⟨false, none, 0⟩ = (503, HealthBody.initializing) ∧
    dispatch ⟨false, none, 0⟩ (Route.other 3) = dispatch ⟨true, some "boom", 9⟩ (Route.other 3) :=
  ⟨c7_readiness_monotone_health_gate.1 ⟨false, some "Init script failed with exit code 1", 0⟩
      ⟨true, some "Init script failed with exit code 1", 0⟩
      (Relation.ReflTransGen.single (ServerStep.markComplete _))
      "Init script failed with exit code 1" rfl,
   (c7_readiness_monotone_health_gate.2.2.1 ⟨true, some "Init script failed with exit code 1", 0⟩
      "Init script failed with exit code 1" rfl).1,
   c7_readiness_monotone_health_gate.2.2.2.1 ⟨false, none, 0⟩ rfl,
   c7_readiness_monotone_health_gate.2.2.2.2 ⟨false, none, 0⟩ ⟨true, some "boom", 9⟩
      (Route.other 3) (by intro h; cases h)⟩

/-- C8: the migration subsystem never propagates exceptions: the promise of
`saveMigrationState` always fulfills (an inner failure is logged into the
outcome, not rethrown), and the promise of `restoreMigrationState` always
fulfills with a boolean — `false` when the manifest is missing, when the
tarball is missing, and when any inner step throws — so shutdown always
proceeds and startup can always fall back to the base image. -/
theorem c8_migration_errors_contained :
    (∀ env : SaveEnv, ∃ o, saveMigrationState env = Except.ok o) ∧
    (∀ (env : SaveEnv) (e : String), saveMigrationStateTry env = Except.error e →
      saveMigrationState env = Except.ok (SaveOutcome.errorLogged e)) ∧
    (∀ env : RestoreEnv, ∃ b, restoreMigrationState env = Except.ok b) ∧
    (∀ env : RestoreEnv, env.getManifest = Except.ok none →
      restoreMigrationState env = Except.ok false) ∧
    (∀ (env : RestoreEnv) (m : MigManifest), env.getManifest = Except.ok (some m) →
      env.getTarball = Except.ok none → restoreMigrationState env = Except.ok false) ∧
    (∀ (env : RestoreEnv) (e : String), restoreMigrationStateTry env = Except.error e →
      restoreMigrationState env = Except.ok false) := by
  refine ⟨?_, ?_, ?_, ?_, ?_, ?_⟩
  · intro env
    cases h : saveMigrationStateTry env with
    | ok u => exact ⟨SaveOutcome.saved, by simp [saveMigrationState, h]⟩
    | error e => exact ⟨SaveOutcome.errorLogged e, by simp [saveMigrationState, h]⟩
  · intro env e h
    simp [saveMigrationState, h]
  · intro env
    cases h : restoreMigrationStateTry env with
    | ok b => exact ⟨b, by simp [restoreMigrationState, h]⟩
    | error e => exact ⟨false, by simp [restoreMigrationState, h]⟩
  · intro env hm
    have htry : restoreMigrationStateTry env = Except.ok false := by
      simp [restoreMigrationStateTry, hm]
    simp [restoreMigrationState, htry]
  · intro env m hm ht
    have htry : restoreMigrationStateTry env = Except.ok false := by
      simp [restoreMigrationStateTry, hm, ht]
    simp [restoreMigrationState, htry]
  · intro env e h
    simp [restoreMigrationState, h]

/-- C8 witness: a missing manifest restores to false; a key-value failure
while fetching the manifest restores to false; a checkpoint whose marker
stat throws still fulfills, with the error logged in the outcome. -/
theorem c8_migration_errors_contained_witness :
    restoreMigrationState ⟨Except.ok none, Except.ok none, Except.ok (), Except.ok ()⟩ =
      Except.ok false ∧
    restoreMigrationState ⟨Except.error "kv unavailable", Except.ok none, Except.ok (),
        Except.ok ()⟩ = Except.ok false ∧
    saveMigrationState ⟨[], [], [], fun _ => none, Except.error "ENOENT: marker missing",
        Except.ok (), Except.ok (), Except.ok (), Except.ok ()⟩ =
      Except.ok (SaveOutcome.errorLogged "ENOENT: marker missing") :=
  ⟨c8_migration_errors_contained.2.2.2.1 _ rfl,
   c8_migration_errors_contained.2.2.2.2.2 _ "kv unavailable" rfl,
   c8_migration_errors_contained.2.1 _ "ENOENT: marker missing" rfl⟩

/-- C9 counterexample: the claim says every byte flowing through the PTY
WebSocket resets the idle timer, but the source only listens to the
socket's `data` events (bytes from the client); a PTY output byte written
to the client at time 5 leaves the timestamp at 0 — the state is
untouched. -/
theorem c9_pty_output_not_stamped :
    trackActivity 5 ⟨true, none, 0⟩ ActivityEvent.shellSocketSend = ⟨true, none, 0⟩ ∧
    (trackActivity 5 ⟨true, none, 0⟩ ActivityEvent.shellSocketSend).lastActivityAt ≠ 5 := by
  exact ⟨rfl, by decide⟩

/-- C9 amended: the activity timestamp is updated exactly by HTTP requests
whose path is not `/health` and which lack the readiness-probe header, and
by client-to-server bytes on the shell WebSocket (`data` events); `/health`
requests, probe requests and server-to-client PTY output bytes leave the
state untouched. -/
theorem c9_activity_filter :
    ∀ (now : Nat) (st : ServerState) (path : String) (probe : Bool),
      (path = "/health" → trackActivity now st (ActivityEvent.httpRequest path probe) = st) ∧
      (probe = true → trackActivity now st (ActivityEvent.httpRequest path probe) = st) ∧
      (path ≠ "/health" → probe = false →
        trackActivity now st (ActivityEvent.httpRequest path probe) =
          { st with lastActivityAt := now }) ∧
      trackActivity now st ActivityEvent.shellSocketRecv = { st with lastActivityAt := now } ∧
      trackActivity now st ActivityEvent.shellSocketSend = st := by
  intro now st path probe
  refine ⟨?_, ?_, ?_, rfl, rfl⟩
  · intro h
    subst h
    simp [trackActivity]
  · intro h
    subst h
    simp [trackActivity]
  · intro hp hpr
    subst hpr
    have hb : (path == "/health") = false := beq_eq_false_iff_ne.mpr hp
    simp [trackActivity, hb]

/-- C9 witness: a `/health` request, a probe request and a PTY output byte
leave the timestamp alone; a plain request and a client-to-server shell
WebSocket byte stamp it. -/
theorem c9_activity_filter_witness :
    trackActivity 5 ⟨true, none, 0⟩ (ActivityEvent.httpRequest "/health" false) =
      ⟨true, none, 0⟩ ∧
    trackActivity 5 ⟨true, none, 0⟩ (ActivityEvent.httpRequest "/exec" true) =
      ⟨true, none, 0⟩ ∧
    trackActivity 5 ⟨true, none, 0⟩ (ActivityEvent.httpRequest "/exec" false) =
      ⟨true, none, 5⟩ ∧
    trackActivity 5 ⟨true, none, 0⟩ ActivityEvent.shellSocketRecv = ⟨true, none, 5⟩ ∧
    trackActivity 7 ⟨true, none, 2⟩ ActivityEvent.shellSocketSend = ⟨true, none, 2⟩ :=
  ⟨(c9_activity_filter 5 ⟨true, none, 0⟩ "/health" false).1 rfl,
   (c9_activity_filter 5 ⟨true, none, 0⟩ "/exec" true).2.1 rfl,
   (c9_activity_filter 5 ⟨true, none, 0⟩ "/exec" false).2.2.1 (by decide) rfl,
   (c9_activity_filter 5 ⟨true, none, 0⟩ "/exec" false).2.2.2.1,
   (c9_activity_filter 7 ⟨true, none, 2⟩ "/exec" false).2.2.2.2⟩

/-- C10: language normalization is case-insensitive in both facades: the
MCP normalizer agrees with the HTTP one on every input, lowering the input
first never changes the outcome (the source lowercases before the map
lookup), and mixed-case aliases like "Python", "JS", "BASH" and
"TypeScript" are accepted with the same canonical result as their
lowercase forms. -/
theorem c10_language_case_insensitive :
    (∀ o : Option String, normalizeLanguageMcp o = normalizeLanguage o) ∧
    (∀ s : String, normalizeLanguage (some s) = normalizeLanguage (some (jsToLower s))) ∧
    normalizeLanguage (some "Python") = some (Lang.code CodeLang.py) ∧
    normalizeLanguage (some "JS") = some (Lang.code CodeLang.js) ∧
    normalizeLanguage (some "BASH") = some Lang.shell ∧
    normalizeLanguageMcp (some "TypeScript") = some (Lang.code CodeLang.ts) := by
  refine ⟨?_, ?_, by decide, by decide, by decide, by decide⟩
  · intro o
    cases o with
    | none => rfl
    | some l => rfl
  · intro s
    by_cases h : s = ""
    · subst h
      rfl
    · have hl : jsToLower s ≠ "" := fun hh => h (jsToLower_eq_empty hh)
      show (if s = "" then none else languageAliasMap (jsToLower s)) =
        (if jsToLower s = "" then none else languageAliasMap (jsToLower (jsToLower s)))
      rw [if_neg h, if_neg hl, jsToLower_idem]

end Sandbox
